import Mathlib

/-!
Verification of the pointer-drawing core of the shrimp-notes repository
(file `src/drawing.js`): the SVG coordinate aligner (`SVG.DrawingTool.alignXYFn`),
the pointer gesture state machine (`PointerState` / `PointerTool`), the
semantic-event construction (`SVG.DrawingTool.makeEvent`), the reference tools
(`PathDrawer`, `ElementRemover` via `removeChildFromPoint`) and the tool
binding registry (the `draw` extension).

Modelling conventions: JavaScript numbers are modelled as rationals (all the
arithmetic in the source is +, -, *, /); DOM objects (pointer events, event
payloads, listener registries, the element tree) are modelled as explicit
data; methods that mutate `this` are modelled as functions from the old state
to the new state.
-/

namespace ShrimpNotes

/-- A DOMRect as returned by `getBoundingClientRect()`. -/
structure Rect where
  x : ℚ
  y : ℚ
  width : ℚ
  height : ℚ
deriving DecidableEq, Repr

/-- The viewBox of the SVG node (`node.viewBox.baseVal`). -/
structure ViewBox where
  x : ℚ
  y : ℚ
  width : ℚ
  height : ℚ
deriving DecidableEq, Repr

/-- The meetOrSlice component of `node.preserveAspectRatio.baseVal`.
`unspecified` stands for every value other than MEET and SLICE, handled by
the `default` branch of the switch in `alignXYFn`. -/
inductive MeetOrSlice where
  | meet
  | slice
  | unspecified
deriving DecidableEq, Repr

/-- The align component of `node.preserveAspectRatio.baseVal`.
`unspecified` stands for every value not named in the switch of `alignXYFn`,
handled by its `default` branch (same as xMidYMid). -/
inductive AlignKind where
  | none
  | xMinYMin
  | xMidYMin
  | xMaxYMin
  | xMinYMid
  | xMidYMid
  | xMaxYMid
  | xMinYMax
  | xMidYMax
  | xMaxYMax
  | unspecified
deriving DecidableEq, Repr

/-- The two components of `node.preserveAspectRatio.baseVal` that
`alignXYFn` reads. -/
structure Fit where
  align : AlignKind
  meetOrSlice : MeetOrSlice
deriving DecidableEq, Repr

namespace DrawingTool

/-- `scaleDown` closure of `alignXYFn`:
`(width, height) => { xScale = box.width/width; yScale = box.height/height;
return (xScale > yScale) ? yScale : xScale }`. -/
def scaleDown (box : ViewBox) (width height : ℚ) : ℚ :=
  let xScale := box.width / width
  let yScale := box.height / height
  if xScale > yScale then yScale else xScale

/-- `scaleUp` closure of `alignXYFn`:
`(width, height) => { xScale = box.width/width; yScale = box.height/height;
return (xScale < yScale) ? yScale : xScale }`. -/
def scaleUp (box : ViewBox) (width height : ℚ) : ℚ :=
  let xScale := box.width / width
  let yScale := box.height / height
  if xScale < yScale then yScale else xScale

/-- `xMax` closure: `(scale, x, w) => (x - w) * scale + box.x + box.width`. -/
def xMax (box : ViewBox) (scale x w : ℚ) : ℚ :=
  (x - w) * scale + box.x + box.width

/-- `xMid` closure:
`(scale, x, w) => x * scale + box.x + (box.width - w * scale) / 2`. -/
def xMid (box : ViewBox) (scale x w : ℚ) : ℚ :=
  x * scale + box.x + (box.width - w * scale) / 2

/-- `xMin` closure: `(scale, x) => x * scale + box.x` (the width argument
passed at the call site is unused). -/
def xMin (box : ViewBox) (scale x _w : ℚ) : ℚ :=
  x * scale + box.x

/-- `yMax` closure: `(scale, y, h) => (y - h) * scale + box.y + box.height`. -/
def yMax (box : ViewBox) (scale y h : ℚ) : ℚ :=
  (y - h) * scale + box.y + box.height

/-- `yMid` closure:
`(scale, y, h) => y * scale + box.y + (box.height - h * scale) / 2`. -/
def yMid (box : ViewBox) (scale y h : ℚ) : ℚ :=
  y * scale + box.y + (box.height - h * scale) / 2

/-- `yMin` closure: `(scale, y) => y * scale + box.y` (the height argument
passed at the call site is unused). -/
def yMin (box : ViewBox) (scale y _h : ℚ) : ℚ :=
  y * scale + box.y

/-- The scale closure selected by the switch at the top of `alignFn`:
SLICE picks `scaleDown`, MEET and the `default` branch pick `scaleUp`. -/
def scaleFnOf (box : ViewBox) : MeetOrSlice → ℚ → ℚ → ℚ
  | .slice => scaleDown box
  | .meet => scaleUp box
  | .unspecified => scaleUp box

/-- `alignFn(xAlignFn, yAlignFn)` of the source: returns
`(x, y, width, height) => { scale = scaleFn(width, height);
return [xAlignFn(scale, x, width), yAlignFn(scale, y, height)] }`. -/
def alignFn (box : ViewBox) (mos : MeetOrSlice)
    (xAlignFn yAlignFn : ℚ → ℚ → ℚ → ℚ) (x y width height : ℚ) : ℚ × ℚ :=
  let scale := scaleFnOf box mos width height
  (xAlignFn scale x width, yAlignFn scale y height)

/-- `nonuniformFn` closure of `alignXYFn`:
`(x, y, width, height) => [x * box.width / width + box.x,
y * box.height / height + box.y]`. -/
def nonuniformFn (box : ViewBox) (x y width height : ℚ) : ℚ × ℚ :=
  (x * box.width / width + box.x, y * box.height / height + box.y)

/-- `SVG.DrawingTool.alignXYFn(node)`: dispatch on `fit.align` exactly as the
final switch of the source does (NONE → `nonuniformFn`, nine anchor cases,
XMIDYMID and `default` → `alignFn(xMid, yMid)`). -/
def alignXYFn (box : ViewBox) (fit : Fit) : ℚ → ℚ → ℚ → ℚ → ℚ × ℚ :=
  match fit.align with
  | .none => nonuniformFn box
  | .xMinYMin => alignFn box fit.meetOrSlice (xMin box) (yMin box)
  | .xMidYMin => alignFn box fit.meetOrSlice (xMid box) (yMin box)
  | .xMaxYMin => alignFn box fit.meetOrSlice (xMax box) (yMin box)
  | .xMinYMid => alignFn box fit.meetOrSlice (xMin box) (yMid box)
  | .xMaxYMid => alignFn box fit.meetOrSlice (xMax box) (yMid box)
  | .xMinYMax => alignFn box fit.meetOrSlice (xMin box) (yMax box)
  | .xMidYMax => alignFn box fit.meetOrSlice (xMid box) (yMax box)
  | .xMaxYMax => alignFn box fit.meetOrSlice (xMax box) (yMax box)
  | .xMidYMid => alignFn box fit.meetOrSlice (xMid box) (yMid box)
  | .unspecified => alignFn box fit.meetOrSlice (xMid box) (yMid box)

end DrawingTool

/-- `PathDrawer.getPosition([x, y], rect)`:
`this.align(x - rect.x, y - rect.y, rect.width, rect.height)`, where
`this.align = SVG.DrawingTool.alignXYFn(node)` was built from the node's
viewBox and preserveAspectRatio. -/
def getPosition (box : ViewBox) (fit : Fit) (p : ℚ × ℚ) (rect : Rect) : ℚ × ℚ :=
  DrawingTool.alignXYFn box fit (p.1 - rect.x) (p.2 - rect.y) rect.width rect.height

/-- C4 — Alignment identity round-trip: with fit mode "none", viewBox
(0,0,W,H) and a viewport rect of the same dimensions with origin (0,0),
aligning any viewport point (x,y) returns exactly (x,y), for every W>0, H>0
(and whatever the meetOrSlice component is, since align NONE ignores it). -/
theorem align_none_identity (x y W H : ℚ) (mos : MeetOrSlice)
    (hW : 0 < W) (hH : 0 < H) :
    getPosition ⟨0, 0, W, H⟩ ⟨AlignKind.none, mos⟩ (x, y) ⟨0, 0, W, H⟩ = (x, y) := by
  simp only [getPosition, DrawingTool.alignXYFn, DrawingTool.nonuniformFn]
  rw [Prod.ext_iff]
  constructor
  · simp only []
    rw [sub_zero, add_zero, mul_div_assoc, div_self (ne_of_gt hW), mul_one]
  · simp only []
    rw [sub_zero, add_zero, mul_div_assoc, div_self (ne_of_gt hH), mul_one]

/-- Witness for `align_none_identity` at a concrete input. -/
theorem align_none_identity_witness :
    (0 : ℚ) < 100 ∧ (0 : ℚ) < 50 ∧
    getPosition ⟨0, 0, 100, 50⟩ ⟨AlignKind.none, MeetOrSlice.meet⟩ (3, 4)
      ⟨0, 0, 100, 50⟩ = (3, 4) :=
  ⟨by decide, by decide,
    align_none_identity 3 4 100 50 MeetOrSlice.meet (by decide) (by decide)⟩

/-- C5 — Meet/slice scale selection: for positive viewport and viewBox sizes,
with xScale = box.width/width and yScale = box.height/height, the uniform
scale the aligner uses is: for "meet" (and for the default branch)
`yScale if xScale < yScale else xScale`; for "slice"
`yScale if xScale > yScale else xScale`. -/
theorem meet_slice_scale_selection (box : ViewBox) (width height : ℚ)
    (hw : 0 < width) (hh : 0 < height)
    (hbw : 0 < box.width) (hbh : 0 < box.height) :
    (DrawingTool.scaleFnOf box MeetOrSlice.meet width height =
        if box.width / width < box.height / height
        then box.height / height else box.width / width) ∧
    (DrawingTool.scaleFnOf box MeetOrSlice.unspecified width height =
        if box.width / width < box.height / height
        then box.height / height else box.width / width) ∧
    (DrawingTool.scaleFnOf box MeetOrSlice.slice width height =
        if box.width / width > box.height / height
        then box.height / height else box.width / width) :=
  ⟨rfl, rfl, rfl⟩

/-- Witness for `meet_slice_scale_selection` at a concrete input. -/
theorem meet_slice_scale_selection_witness :
    (0 : ℚ) < 100 ∧ (0 : ℚ) < 50 ∧ (0 : ℚ) < 200 ∧ (0 : ℚ) < 80 ∧
    ((DrawingTool.scaleFnOf ⟨0, 0, 200, 80⟩ MeetOrSlice.meet 100 50 =
        if (200 : ℚ) / 100 < (80 : ℚ) / 50 then (80 : ℚ) / 50 else (200 : ℚ) / 100) ∧
     (DrawingTool.scaleFnOf ⟨0, 0, 200, 80⟩ MeetOrSlice.unspecified 100 50 =
        if (200 : ℚ) / 100 < (80 : ℚ) / 50 then (80 : ℚ) / 50 else (200 : ℚ) / 100) ∧
     (DrawingTool.scaleFnOf ⟨0, 0, 200, 80⟩ MeetOrSlice.slice 100 50 =
        if (200 : ℚ) / 100 > (80 : ℚ) / 50 then (80 : ℚ) / 50 else (200 : ℚ) / 100)) :=
  ⟨by decide, by decide, by decide, by decide,
    meet_slice_scale_selection ⟨0, 0, 200, 80⟩ 100 50
      (by decide) (by decide) (by decide) (by decide)⟩

/-! ## Pointer state machine (`PointerState` / `PointerTool`) -/

/-- The data of a raw PointerEvent the code reads: `buttons` (0 models both
an unreported mask and "no buttons", which are the two falsy cases of
`e.buttons || 1`), `isPrimary`, and the client coordinates. -/
structure PtrData where
  buttons : Nat
  isPrimary : Bool
  clientX : ℚ
  clientY : ℚ
deriving DecidableEq, Repr

/-- A raw pointer event: one of the four listener names of
`PointerTool.NAMES`. -/
inductive PEvent where
  | down (e : PtrData)
  | move (e : PtrData)
  | up (e : PtrData)
  | leave (e : PtrData)
deriving DecidableEq, Repr

/-- The mutable `PointerState` object: buttons pressed at pointerdown, point
where pointerdown occurred (a list, `[]` when reset), and the state number
(NONE = 0, INIT = 1, MOVING = 2). -/
structure PointerState where
  buttons : Nat
  point : List ℚ
  state : Nat
deriving DecidableEq, Repr

/-- `PointerState.reset()`: buttons 0, empty point, state NONE. The
constructor produces exactly this state. -/
def PointerState.reset : PointerState :=
  { buttons := 0, point := [], state := 0 }

/-- `PointerState.init(x, y, buttons)`: record the mask and point, state
INIT. -/
def PointerState.init (x y : ℚ) (buttons : Nat) : PointerState :=
  { buttons := buttons, point := [x, y], state := 1 }

/-- `PointerState.moving()`: only the state number changes, to MOVING. -/
def PointerState.moving (p : PointerState) : PointerState :=
  { p with state := 2 }

/-- `PointerTool.VALID_BUTTONS = 33` (binary 100001: left-click/pen-tip bit
and eraser bit). -/
def VALID_BUTTONS : Nat := 33

/-- The names of the two semantic CustomEvents (`SVG.DrawingTool.DRAW` =
"drawing", `SVG.DrawingTool.END` = "drawingend"). -/
inductive SemName where
  | DRAW
  | END
deriving DecidableEq, Repr

/-- The `detail` payload built by `SVG.DrawingTool.makeEvent`: the initial
pointerdown point, the two button-role flags (`buttons & 1` and
`buttons & 32`, numbers used as booleans in the source), the current client
point, and the bounding rect of the attached node. The `currentTarget`
field is implicit in which surface's run the event belongs to. -/
structure SemEvent where
  name : SemName
  init : ℚ × ℚ
  isPrimaryButton : Nat
  isEraserButton : Nat
  point : ℚ × ℚ
  rect : Rect
deriving DecidableEq, Repr

/-- `SVG.DrawingTool.makeEvent(name, e, buttons, [x, y])` where `buttons`
and `[x, y]` come from the current `PointerState` (destructuring `[]` would
give undefined coordinates; that case is unreachable because events are only
made while the state is truthy, so we read components with default 0). -/
def makeEvent (name : SemName) (e : PtrData) (rect : Rect)
    (p : PointerState) : SemEvent :=
  { name := name
    init := (p.point.getD 0 0, p.point.getD 1 0)
    isPrimaryButton := p.buttons &&& 1
    isEraserButton := p.buttons &&& 32
    point := (e.clientX, e.clientY)
    rect := rect }

/-- The mask a pointerdown computes: `(e.buttons || 1) & PointerTool.VALID_BUTTONS`
(an unreported or empty mask is substituted by 1, the left-click/pen-tip bit). -/
def downMask (b : Nat) : Nat :=
  (if b = 0 then 1 else b) &&& VALID_BUTTONS

/-- `PointerTool.pointerdown(e)`: substitute an unreported mask by 1, mask
with VALID_BUTTONS; if the result is truthy then init (primary) or reset
(non-primary), otherwise leave the state untouched. -/
def pointerdown (p : PointerState) (e : PtrData) : PointerState :=
  let buttons := downMask e.buttons
  if buttons ≠ 0 then
    if e.isPrimary then PointerState.init e.clientX e.clientY buttons
    else PointerState.reset
  else p

/-- `PointerTool.pointermove(e)`: if the state is truthy and the contact is
primary, set MOVING and dispatch a DRAW event built from the stored pointer
state (the source calls `moving()` before building the event; only the state
number changes, so the payload uses the stored buttons and point). -/
def pointermove (rect : Rect) (p : PointerState) (e : PtrData) :
    PointerState × List SemEvent :=
  if p.state ≠ 0 ∧ e.isPrimary then
    let p2 := p.moving
    (p2, [makeEvent SemName.DRAW e rect p2])
  else (p, [])

/-- `PointerTool.pointerup(e)`: if the state is truthy and the contact is
primary, dispatch an END event built from the stored pointer state, then
reset. -/
def pointerup (rect : Rect) (p : PointerState) (e : PtrData) :
    PointerState × List SemEvent :=
  if p.state ≠ 0 ∧ e.isPrimary then
    (PointerState.reset, [makeEvent SemName.END e rect p])
  else (p, [])

/-- One raw pointer event processed by the PointerTool listeners
(`pointerleave` delegates to `pointerup`). Returns the new pointer state and
the semantic events dispatched on the node. -/
def ptStep (rect : Rect) (p : PointerState) : PEvent → PointerState × List SemEvent
  | .down e => (pointerdown p e, [])
  | .move e => pointermove rect p e
  | .up e => pointerup rect p e
  | .leave e => pointerup rect p e

/-- A whole raw event sequence processed in order, collecting every semantic
event dispatched. -/
def ptRun (rect : Rect) (p : PointerState) : List PEvent → PointerState × List SemEvent
  | [] => (p, [])
  | e :: evs =>
    let s := ptStep rect p e
    let r := ptRun rect s.1 evs
    (r.1, s.2 ++ r.2)

/-- A raw event is a qualifying primary contact-down iff it is a `down`
whose contact is primary and whose substituted mask intersects
VALID_BUTTONS. -/
def isQualifyingPrimaryDown : PEvent → Prop
  | .down e => e.isPrimary = true ∧ downMask e.buttons ≠ 0
  | _ => False

instance : DecidablePred isQualifyingPrimaryDown := by
  intro e
  cases e <;> simp only [isQualifyingPrimaryDown] <;> infer_instance

/-- An event that is not a contact-down (moves, ups, leaves). -/
def notDown : PEvent → Prop
  | .down _ => False
  | _ => True

instance : DecidablePred notDown := by
  intro e
  cases e <;> simp only [notDown] <;> infer_instance

/-- From an idle (NONE) pointer state, a raw event sequence containing no
qualifying primary contact-down keeps the state idle and dispatches no
semantic event. -/
theorem ptRun_of_state_none (rect : Rect) (evs : List PEvent) :
    ∀ p : PointerState, p.state = 0 →
    (∀ e ∈ evs, ¬ isQualifyingPrimaryDown e) →
    (ptRun rect p evs).1.state = 0 ∧ (ptRun rect p evs).2 = [] := by
  induction evs with
  | nil =>
    intro p hp _
    exact ⟨hp, rfl⟩
  | cons e evs ih =>
    intro p hp hq
    have hstep : (ptStep rect p e).1.state = 0 ∧ (ptStep rect p e).2 = [] := by
      cases e with
      | down d =>
        have hd := hq _ (List.mem_cons_self _ _)
        simp only [isQualifyingPrimaryDown, not_and_or] at hd
        by_cases hb : downMask d.buttons = 0
        · simp [ptStep, pointerdown, hb, hp]
        · have hprim : ¬ d.isPrimary = true := by
            rcases hd with h | h
            · exact h
            · exact absurd hb (by simpa using h)
          simp [ptStep, pointerdown, hb, hprim, PointerState.reset]
      | move d => simp [ptStep, pointermove, hp]
      | up d => simp [ptStep, pointerup, hp]
      | leave d => simp [ptStep, pointerup, hp]
    have hrest := ih (ptStep rect p e).1 hstep.1
      (fun x hx => hq x (List.mem_cons_of_mem _ hx))
    refine ⟨?_, ?_⟩
    · simpa [ptRun] using hrest.1
    · simp [ptRun, hstep.2, hrest.2]

/-- C1 (amended) — Gesture veto: a qualifying primary contact-down followed
by a second, non-primary contact-down whose substituted mask also intersects
VALID_BUTTONS resets the machine, and no DRAW or END semantic event is
dispatched for the whole sequence as long as no new qualifying primary
contact-down occurs: the code ignores a second contact-down whose mask
misses VALID_BUTTONS instead of resetting, so the veto needs the second
contact's mask to qualify. -/
theorem gesture_veto (rect : Rect) (p : PointerState) (e1 e2 : PtrData)
    (evs : List PEvent)
    (h1p : e1.isPrimary = true) (h1b : downMask e1.buttons ≠ 0)
    (h2p : e2.isPrimary = false) (h2b : downMask e2.buttons ≠ 0)
    (hq : ∀ e ∈ evs, ¬ isQualifyingPrimaryDown e) :
    (ptRun rect p (PEvent.down e1 :: PEvent.down e2 :: evs)).2 = [] := by
  have h1 : pointerdown p e1 =
      PointerState.init e1.clientX e1.clientY (downMask e1.buttons) := by
    simp [pointerdown, h1b, h1p]
  have h2 : pointerdown (PointerState.init e1.clientX e1.clientY
      (downMask e1.buttons)) e2 = PointerState.reset := by
    simp [pointerdown, h2b, h2p]
  have hrest := ptRun_of_state_none rect evs PointerState.reset rfl hq
  simp [ptRun, ptStep, h1, h2, hrest.2]

/-- Witness for `gesture_veto` at a concrete input: primary pen-tip down,
then a second touch contact (unreported mask, substituted to primary), then
a primary move and a primary up; nothing is dispatched. -/
theorem gesture_veto_witness :
    (ptRun ⟨0, 0, 100, 100⟩ PointerState.reset
      [PEvent.down ⟨1, true, 0, 0⟩, PEvent.down ⟨0, false, 5, 5⟩,
       PEvent.move ⟨1, true, 1, 1⟩, PEvent.up ⟨1, true, 2, 2⟩]).2 = [] :=
  gesture_veto ⟨0, 0, 100, 100⟩ PointerState.reset ⟨1, true, 0, 0⟩
    ⟨0, false, 5, 5⟩ [PEvent.move ⟨1, true, 1, 1⟩, PEvent.up ⟨1, true, 2, 2⟩]
    rfl (by decide) rfl (by decide) (by decide)

/-- C1 counterexample — the claim quantified over every second, non-primary
contact-down is false on the code: a second contact-down whose mask misses
VALID_BUTTONS (here buttons = 2, the right-click bit) is ignored entirely,
so a following primary contact-move still dispatches a DRAW event. -/
theorem gesture_veto_counterexample :
    ((ptRun ⟨0, 0, 100, 100⟩ PointerState.reset
      [PEvent.down ⟨1, true, 0, 0⟩, PEvent.down ⟨2, false, 5, 5⟩,
       PEvent.move ⟨1, true, 1, 1⟩]).2.map SemEvent.name) = [SemName.DRAW] := by
  decide

/-- C7 (amended) — Unsupported buttons are ignored: a contact-down whose
substituted mask does not intersect VALID_BUTTONS is ignored: no DRAW or END
is dispatched for it and the pointer state is left exactly as it was (the
code does not reset to NONE; in particular an idle machine stays NONE, but
an in-progress gesture is not disqualified). -/
theorem unsupported_buttons_ignored (rect : Rect) (p : PointerState)
    (e : PtrData) (hb : downMask e.buttons = 0) :
    ptStep rect p (PEvent.down e) = (p, []) := by
  simp [ptStep, pointerdown, hb]

/-- Witness for `unsupported_buttons_ignored`: a right-click contact-down
(buttons = 2) arriving mid-gesture is ignored. -/
theorem unsupported_buttons_ignored_witness :
    ptStep ⟨0, 0, 100, 100⟩ (PointerState.init 0 0 1) (PEvent.down ⟨2, true, 3, 3⟩) =
      (PointerState.init 0 0 1, []) :=
  unsupported_buttons_ignored ⟨0, 0, 100, 100⟩ (PointerState.init 0 0 1)
    ⟨2, true, 3, 3⟩ (by decide)

/-- C7 counterexample — the claim that the state is NONE after a
disqualified contact-down is false on the code: from INIT (a qualifying
primary down at (0,0) with the primary button), a contact-down with
buttons = 2 (mask `2 & 33 = 0`) leaves the state at INIT = 1, not NONE = 0. -/
theorem unsupported_buttons_counterexample :
    (ptRun ⟨0, 0, 100, 100⟩ PointerState.reset
      [PEvent.down ⟨1, true, 0, 0⟩, PEvent.down ⟨2, true, 3, 3⟩]).1.state = 1 ∧
    (1 : Nat) ≠ 0 := by
  decide

/-- One non-down step preserves the recorded button mask whenever the state
is live, and every semantic event it dispatches carries the flags derived
from that mask. -/
theorem ptStep_buttons_inv (rect : Rect) (p : PointerState) (b : Nat)
    (e : PEvent) (hnd : notDown e) (hp : p.state ≠ 0 → p.buttons = b) :
    (∀ s ∈ (ptStep rect p e).2,
      s.isPrimaryButton = b &&& 1 ∧ s.isEraserButton = b &&& 32) ∧
    ((ptStep rect p e).1.state ≠ 0 → (ptStep rect p e).1.buttons = b) := by
  cases e with
  | down d => exact absurd hnd (by simp [notDown])
  | move d =>
    by_cases hc : p.state ≠ 0 ∧ d.isPrimary
    · have hb := hp hc.1
      constructor
      · intro s hs
        simp only [ptStep, pointermove, if_pos hc, List.mem_singleton] at hs
        subst hs
        simp [makeEvent, PointerState.moving, hb]
      · intro _
        simp [ptStep, pointermove, if_pos hc, PointerState.moving, hb]
    · constructor
      · intro s hs
        simp [ptStep, pointermove, if_neg hc] at hs
      · intro h
        simp only [ptStep, pointermove, if_neg hc] at h ⊢
        exact hp h
  | up d =>
    by_cases hc : p.state ≠ 0 ∧ d.isPrimary
    · have hb := hp hc.1
      constructor
      · intro s hs
        simp only [ptStep, pointerup, if_pos hc, List.mem_singleton] at hs
        subst hs
        simp [makeEvent, hb]
      · intro h
        simp [ptStep, pointerup, if_pos hc, PointerState.reset] at h
    · constructor
      · intro s hs
        simp [ptStep, pointerup, if_neg hc] at hs
      · intro h
        simp only [ptStep, pointerup, if_neg hc] at h ⊢
        exact hp h
  | leave d =>
    by_cases hc : p.state ≠ 0 ∧ d.isPrimary
    · have hb := hp hc.1
      constructor
      · intro s hs
        simp only [ptStep, pointerup, if_pos hc, List.mem_singleton] at hs
        subst hs
        simp [makeEvent, hb]
      · intro h
        simp [ptStep, pointerup, if_pos hc, PointerState.reset] at h
    · constructor
      · intro s hs
        simp [ptStep, pointerup, if_neg hc] at hs
      · intro h
        simp only [ptStep, pointerup, if_neg hc] at h ⊢
        exact hp h

/-- Running any sequence of non-down events preserves the live-state button
mask and stamps every dispatched semantic event with the flags derived from
it. -/
theorem ptRun_buttons_inv (rect : Rect) (evs : List PEvent) (b : Nat) :
    ∀ p : PointerState, (∀ e ∈ evs, notDown e) → (p.state ≠ 0 → p.buttons = b) →
    (∀ s ∈ (ptRun rect p evs).2,
      s.isPrimaryButton = b &&& 1 ∧ s.isEraserButton = b &&& 32) ∧
    ((ptRun rect p evs).1.state ≠ 0 → (ptRun rect p evs).1.buttons = b) := by
  induction evs with
  | nil =>
    intro p _ hp
    exact ⟨by intro s hs; simp [ptRun] at hs, by simpa [ptRun] using hp⟩
  | cons e evs ih =>
    intro p hnd hp
    have hstep := ptStep_buttons_inv rect p b e (hnd _ (List.mem_cons_self _ _)) hp
    have hrest := ih (ptStep rect p e).1
      (fun x hx => hnd x (List.mem_cons_of_mem _ hx)) hstep.2
    constructor
    · intro s hs
      simp only [ptRun, List.mem_append] at hs
      rcases hs with hs | hs
      · exact hstep.1 s hs
      · exact hrest.1 s hs
    · simpa [ptRun] using hrest.2

/-- C10 — Per-gesture button capture: after a qualifying primary
contact-down, every DRAW and END semantic event dispatched over any
following sequence of contact-move/up/leave events (whatever button state
those events report) carries exactly the flags derived from the mask
recorded at the contact-down: `mask & 1` and `mask & 32`. -/
theorem per_gesture_button_capture (rect : Rect) (p : PointerState)
    (e0 : PtrData) (evs : List PEvent)
    (h0p : e0.isPrimary = true) (h0b : downMask e0.buttons ≠ 0)
    (hnd : ∀ e ∈ evs, notDown e) :
    ∀ s ∈ (ptRun rect (pointerdown p e0) evs).2,
      s.isPrimaryButton = downMask e0.buttons &&& 1 ∧
      s.isEraserButton = downMask e0.buttons &&& 32 := by
  have h0 : pointerdown p e0 =
      PointerState.init e0.clientX e0.clientY (downMask e0.buttons) := by
    simp [pointerdown, h0b, h0p]
  rw [h0]
  exact (ptRun_buttons_inv rect evs (downMask e0.buttons)
    (PointerState.init e0.clientX e0.clientY (downMask e0.buttons))
    hnd (fun _ => rfl)).1

/-- Witness for `per_gesture_button_capture`: the gesture starts with
buttons = 33 (pen tip + eraser); a later move reporting buttons = 32 still
yields a DRAW stamped with the down-time flags (1, 32). -/
theorem per_gesture_button_capture_witness :
    ((ptRun ⟨0, 0, 100, 100⟩
        (pointerdown PointerState.reset ⟨33, true, 0, 0⟩)
        [PEvent.move ⟨32, true, 1, 1⟩]).2.map
      (fun s => (s.isPrimaryButton, s.isEraserButton))) = [(1, 32)] := by
  have h := per_gesture_button_capture ⟨0, 0, 100, 100⟩ PointerState.reset
    ⟨33, true, 0, 0⟩ [PEvent.move ⟨32, true, 1, 1⟩] rfl (by decide) (by decide)
  have hl : (ptRun ⟨0, 0, 100, 100⟩
      (pointerdown PointerState.reset ⟨33, true, 0, 0⟩)
      [PEvent.move ⟨32, true, 1, 1⟩]).2 =
      [makeEvent SemName.DRAW ⟨32, true, 1, 1⟩ ⟨0, 0, 100, 100⟩
        ((PointerState.init 0 0 33).moving)] := by decide
  rcases h _ (by rw [hl]; exact List.mem_singleton_self _) with ⟨h1, h2⟩
  rw [hl]
  simp only [List.map_cons, List.map_nil]
  rw [h1, h2]
  decide

/-! ## Element tree and `SVG.DrawingTool.removeChildFromPoint` -/

/-- A DOM element subtree: an id and the list of child subtrees. We model
the subtree rooted at the tool's attached node (`c.currentTarget`, the
drawing surface root). A hit-test result outside this subtree behaves like
an element whose parent chain never meets the surface root. -/
inductive Dom where
  | node : Nat → List Dom → Dom

/-- The id at the root of a subtree. -/
def Dom.rootId : Dom → Nat
  | .node i _ => i

mutual

/-- `t.contains(e)` of the DOM: e is t itself or a descendant of t —
modelled as: some node of the subtree carries id e. -/
def Dom.containsId : Dom → Nat → Bool
  | .node i kids, e => i == e || Dom.containsIdL kids e

/-- `containsId` over a list of subtrees. -/
def Dom.containsIdL : List Dom → Nat → Bool
  | [], _ => false
  | t :: ts, e => Dom.containsId t e || Dom.containsIdL ts e

end

mutual

/-- `e.parentNode` resolved inside the subtree: the id of the node having a
child with id e, if any. -/
def Dom.parentOf : Dom → Nat → Option Nat
  | .node i kids, e =>
    if kids.any (fun k => k.rootId == e) then some i else Dom.parentOfL kids e

/-- `parentOf` over a list of subtrees. -/
def Dom.parentOfL : List Dom → Nat → Option Nat
  | [], _ => none
  | t :: ts, e =>
    match Dom.parentOf t e with
    | some p => some p
    | none => Dom.parentOfL ts e

end

mutual

/-- `e.remove()`: detach every node with id e (ids are unique in a real
document) from its parent, together with its subtree. The root node itself
is never its own parent's child here, so the root is kept. -/
def Dom.removeId : Dom → Nat → Dom
  | .node i kids, e => .node i (Dom.removeIdL kids e)

/-- `removeId` over a list of subtrees. -/
def Dom.removeIdL : List Dom → Nat → List Dom
  | [], _ => []
  | t :: ts, e =>
    if t.rootId == e then Dom.removeIdL ts e
    else Dom.removeId t e :: Dom.removeIdL ts e

end

/-- Outcome of `removeChildFromPoint`: the document subtree afterwards and
whether a TypeError escaped the handler. -/
structure RemoveOutcome where
  doc : Dom
  threw : Bool

/-- `SVG.DrawingTool.removeChildFromPoint(c)`:
`e = document.elementFromPoint(...c.point)` is the `hit` argument (`none`
models a null result). `t = c.currentTarget` is the root of `T`.
`isRemovable = (e !== t) && (e.parentNode === t || t.contains(e))`;
if removable, `e.remove()`. When the hit is null, `e !== t` is true and
evaluating `e.parentNode` throws a TypeError before any mutation, so the
document is returned unchanged with `threw = true`. -/
def removeChildFromPoint (T : Dom) (hit : Option Nat) : RemoveOutcome :=
  match hit with
  | none => { doc := T, threw := true }
  | some e =>
    let t := T.rootId
    let isRemovable := (e ≠ t) ∧ (T.parentOf e = some t ∨ T.containsId e = true)
    { doc := if isRemovable then T.removeId e else T, threw := false }

mutual

/-- A node that has a parent inside the subtree occurs in the subtree. -/
theorem Dom.containsId_of_parentOf (t : Dom) (e p : Nat)
    (h : t.parentOf e = some p) : t.containsId e = true := by
  cases t with
  | node i kids =>
    simp only [Dom.parentOf] at h
    simp only [Dom.containsId, Bool.or_eq_true, beq_iff_eq]
    by_cases hk : kids.any (fun k => k.rootId == e)
    · rcases List.any_eq_true.mp hk with ⟨k, hkmem, hke⟩
      right
      exact Dom.containsIdL_of_mem kids k e hkmem (by simpa using hke)
    · right
      rw [if_neg hk] at h
      exact Dom.containsIdL_of_parentOfL kids e p h

/-- A member subtree whose root id is e makes the list contain e. -/
theorem Dom.containsIdL_of_mem (ts : List Dom) (k : Dom) (e : Nat)
    (hmem : k ∈ ts) (hke : k.rootId = e) : Dom.containsIdL ts e = true := by
  cases ts with
  | nil => cases hmem
  | cons t ts =>
    simp only [Dom.containsIdL, Bool.or_eq_true]
    rcases List.mem_cons.mp hmem with h | h
    · left
      subst h
      cases k with
      | node i kids =>
        simp only [Dom.rootId] at hke
        simp [Dom.containsId, hke]
    · right
      exact Dom.containsIdL_of_mem ts k e h hke

/-- `containsIdL_of_parentOf` over a list of subtrees. -/
theorem Dom.containsIdL_of_parentOfL (ts : List Dom) (e p : Nat)
    (h : Dom.parentOfL ts e = some p) : Dom.containsIdL ts e = true := by
  cases ts with
  | nil => simp [Dom.parentOfL] at h
  | cons t ts =>
    simp only [Dom.parentOfL] at h
    simp only [Dom.containsIdL, Bool.or_eq_true]
    cases hp : t.parentOf e with
    | some q =>
      left
      exact Dom.containsId_of_parentOf t e q hp
    | none =>
      right
      rw [hp] at h
      exact Dom.containsIdL_of_parentOfL ts e p h

end

mutual

/-- After `removeId e` on a subtree whose root id is not e, no node with id
e remains. -/
theorem Dom.containsId_removeId (t : Dom) (e : Nat) (h : t.rootId ≠ e) :
    (t.removeId e).containsId e = false := by
  cases t with
  | node i kids =>
    simp only [Dom.removeId, Dom.containsId, Bool.or_eq_false_iff]
    refine ⟨?_, Dom.containsIdL_removeIdL kids e⟩
    simpa [Dom.rootId] using h

/-- `containsId_removeId` over a list of subtrees. -/
theorem Dom.containsIdL_removeIdL (ts : List Dom) (e : Nat) :
    Dom.containsIdL (Dom.removeIdL ts e) e = false := by
  cases ts with
  | nil => simp [Dom.removeIdL, Dom.containsIdL]
  | cons t ts =>
    simp only [Dom.removeIdL]
    by_cases h : t.rootId = e
    · simp only [h, beq_self_eq_true, if_true]
      exact Dom.containsIdL_removeIdL ts e
    · rw [if_neg (by simpa using h)]
      simp only [Dom.containsIdL, Bool.or_eq_false_iff]
      exact ⟨Dom.containsId_removeId t e h, Dom.containsIdL_removeIdL ts e⟩

end

/-- `removeId` keeps the root id. -/
theorem Dom.rootId_removeId (t : Dom) (e : Nat) :
    (t.removeId e).rootId = t.rootId := by
  cases t with
  | node i kids => rfl

/-- Every subtree contains its own root id. -/
theorem Dom.containsId_rootId (t : Dom) : t.containsId t.rootId = true := by
  cases t with
  | node i kids => simp [Dom.containsId, Dom.rootId]

/-- C8 — Remover root safety: for the element-removal handler shared by the
Element Remover's DRAW and END handlers, the hit element is removed iff it
is a strict descendant of the bound surface root (`e ≠ root` and e occurs
under the root); the root element itself is never removed; a hit that
resolves to the root or outside the subtree leaves the document unchanged;
a null hit throws before any mutation and also leaves the document
unchanged. -/
theorem remover_root_safety (T : Dom) (hit : Option Nat) :
    (∀ e, hit = some e → e ≠ T.rootId → T.containsId e = true →
      (removeChildFromPoint T hit).doc = T.removeId e ∧
      (removeChildFromPoint T hit).doc.containsId e = false) ∧
    (∀ e, hit = some e → (e = T.rootId ∨ T.containsId e = false) →
      (removeChildFromPoint T hit).doc = T) ∧
    (hit = none → (removeChildFromPoint T hit).doc = T) ∧
    (removeChildFromPoint T hit).doc.containsId T.rootId = true := by
  refine ⟨?_, ?_, ?_, ?_⟩
  · rintro e rfl hne hc
    have hrem : (e ≠ T.rootId) ∧
        (T.parentOf e = some T.rootId ∨ T.containsId e = true) :=
      ⟨hne, Or.inr hc⟩
    constructor
    · simp [removeChildFromPoint, if_pos hrem]
    · have : (removeChildFromPoint T (some e)).doc = T.removeId e := by
        simp [removeChildFromPoint, if_pos hrem]
      rw [this]
      exact Dom.containsId_removeId T e (fun h => hne h.symm)
  · rintro e rfl hcase
    have hnrem : ¬ ((e ≠ T.rootId) ∧
        (T.parentOf e = some T.rootId ∨ T.containsId e = true)) := by
      rcases hcase with h | h
      · intro hc
        exact hc.1 h
      · intro hc
        rcases hc.2 with hp | hcont
        · rw [Dom.containsId_of_parentOf T e T.rootId hp] at h
          cases h
        · rw [hcont] at h
          cases h
    simp [removeChildFromPoint, if_neg hnrem]
  · rintro rfl
    rfl
  · cases hit with
    | none => exact Dom.containsId_rootId T
    | some e =>
      by_cases hrem : (e ≠ T.rootId) ∧
          (T.parentOf e = some T.rootId ∨ T.containsId e = true)
      · have : (removeChildFromPoint T (some e)).doc = T.removeId e := by
          simp [removeChildFromPoint, if_pos hrem]
        rw [this, ← Dom.rootId_removeId T e]
        exact Dom.containsId_rootId (T.removeId e)
      · have : (removeChildFromPoint T (some e)).doc = T := by
          simp [removeChildFromPoint, if_neg hrem]
        rw [this]
        exact Dom.containsId_rootId T

/-- Witness for `remover_root_safety`: on the surface tree
0 → [1, 2 → [3]], a hit on element 2 (a strict descendant) removes exactly
the subtree rooted at 2. -/
theorem remover_root_safety_witness :
    (removeChildFromPoint (Dom.node 0 [Dom.node 1 [], Dom.node 2 [Dom.node 3 []]])
        (some 2)).doc =
      (Dom.node 0 [Dom.node 1 [], Dom.node 2 [Dom.node 3 []]]).removeId 2 ∧
    (removeChildFromPoint (Dom.node 0 [Dom.node 1 [], Dom.node 2 [Dom.node 3 []]])
        (some 2)).doc.containsId 2 = false :=
  (remover_root_safety (Dom.node 0 [Dom.node 1 [], Dom.node 2 [Dom.node 3 []]])
      (some 2)).1 2 rfl (by decide) (by decide)

/-! ## Tool binding registry (the `draw` extension on the SVG factory) -/

/-- The surface as the binding registry sees it: the semantic-event listener
registrations on the node (each identified by the owning tool instance —
modelled by a Nat id, since every `DrawingTool` builds its own listener
closures — and the event name), the `drawingTool` slot and the lazily
created `drawingPointer`. -/
structure Surface where
  attached : List (Nat × SemName)
  drawingTool : Option Nat
  drawingPointer : Bool
deriving DecidableEq, Repr

/-- The `listeners` array a `DrawingTool` builds in its constructor: one
listener per name of `SVG.DrawingTool.NAMES = [DRAW, END]`. -/
def listenersOf (tool : Nat) : List (Nat × SemName) :=
  [(tool, SemName.DRAW), (tool, SemName.END)]

/-- `node.addEventListener(name, fn)`: registering an already-registered
(name, fn) pair is a no-op, otherwise the pair is appended. -/
def addEventListener (l : List (Nat × SemName)) (b : Nat × SemName) :
    List (Nat × SemName) :=
  if b ∈ l then l else l ++ [b]

/-- `node.removeEventListener(name, fn)`: removes the matching registration
when present, otherwise a no-op. -/
def removeEventListener (l : List (Nat × SemName)) (b : Nat × SemName) :
    List (Nat × SemName) :=
  l.erase b

/-- `DrawingTool.addTo(node)`: add each listener of the tool. -/
def addTo (tool : Nat) (s : Surface) : Surface :=
  { s with attached := (listenersOf tool).foldl addEventListener s.attached }

/-- `DrawingTool.removeFrom(node)`: remove each listener of the tool. -/
def removeFrom (tool : Nat) (s : Surface) : Surface :=
  { s with attached := (listenersOf tool).foldl removeEventListener s.attached }

/-- The `draw(false)` branch: `this.drawingTool?.removeFrom?.(this.node)`.
The optional chaining makes a missing tool a silent no-op, and the
`drawingTool` reference itself is kept. -/
def drawFalse (s : Surface) : Surface :=
  match s.drawingTool with
  | some t => removeFrom t s
  | none => s

/-- The `draw(tool)` extension: lazily create the pointer dispatcher, then
either swap the new tool in (detach the current one via `draw(false)`,
record the new tool, attach it) or detach the current tool. -/
def draw (s : Surface) (tool : Option Nat) : Surface :=
  let s1 : Surface := { s with drawingPointer := true }
  match tool with
  | some t => addTo t { drawFalse s1 with drawingTool := some t }
  | none => drawFalse s1

/-- `node.dispatchEvent` routing: the tools whose handlers receive an event
with name n, in registration order. -/
def deliveries (s : Surface) (n : SemName) : List Nat :=
  (s.attached.filter (fun b => b.2 == n)).map Prod.fst

/-- C3 — Tool swap atomicity: activating tool B while tool A is active (its
bindings being exactly the attached ones) leaves exactly B's bindings
attached and B recorded, so no DRAW or END dispatched after the swap is
delivered to A (when A ≠ B) and every delivery goes only to B. -/
theorem tool_swap_atomicity (s : Surface) (A B : Nat)
    (hT : s.drawingTool = some A) (hA : s.attached = listenersOf A) :
    (draw s (some B)).attached = listenersOf B ∧
    (draw s (some B)).drawingTool = some B ∧
    (A ≠ B → ∀ n, A ∉ deliveries (draw s (some B)) n) ∧
    (∀ n, ∀ t ∈ deliveries (draw s (some B)) n, t = B) := by
  have hdetach : (draw s (some B)).attached = listenersOf B := by
    simp only [draw, drawFalse, hT, removeFrom, addTo, hA, listenersOf,
      removeEventListener, addEventListener, List.foldl]
    rw [List.erase_cons_head]
    rw [List.erase_cons_head]
    simp
  refine ⟨hdetach, rfl, ?_, ?_⟩
  · intro hAB n hmem
    apply hAB
    unfold deliveries at hmem
    rw [hdetach] at hmem
    rcases List.mem_map.mp hmem with ⟨b, hb, hfst⟩
    rcases List.mem_filter.mp hb with ⟨hbmem, _⟩
    simp only [listenersOf, List.mem_cons, List.not_mem_nil, or_false] at hbmem
    rcases hbmem with rfl | rfl <;> exact hfst.symm
  · intro n t hmem
    unfold deliveries at hmem
    rw [hdetach] at hmem
    rcases List.mem_map.mp hmem with ⟨b, hb, hfst⟩
    rcases List.mem_filter.mp hb with ⟨hbmem, _⟩
    simp only [listenersOf, List.mem_cons, List.not_mem_nil, or_false] at hbmem
    rcases hbmem with rfl | rfl <;> exact hfst.symm

/-- Witness for `tool_swap_atomicity`: tool 0 active on a surface carrying
exactly its bindings; tool 1 is activated. -/
theorem tool_swap_atomicity_witness :
    (draw ⟨listenersOf 0, some 0, false⟩ (some 1)).attached = listenersOf 1 ∧
    (draw ⟨listenersOf 0, some 0, false⟩ (some 1)).drawingTool = some 1 ∧
    ((0 : Nat) ≠ 1 → ∀ n, 0 ∉ deliveries (draw ⟨listenersOf 0, some 0, false⟩ (some 1)) n) ∧
    (∀ n, ∀ t ∈ deliveries (draw ⟨listenersOf 0, some 0, false⟩ (some 1)) n, t = 1) :=
  tool_swap_atomicity ⟨listenersOf 0, some 0, false⟩ 0 1 rfl rfl

/-- C9 — Idempotent deactivate: `draw(false)` on a surface with no active
tool leaves the attached listeners and the tool slot unchanged (the
optional-chaining call is a silent no-op, not an error — the model is a
total function); and on any surface whose listener registry is duplicate
free (as the DOM guarantees, since addEventListener never duplicates), a
second `draw(false)` removes nothing more: the attached listeners after one
call and after two are the same. -/
theorem deactivate_idempotent (s : Surface) (hnodup : s.attached.Nodup) :
    (s.drawingTool = none →
      (draw s none).attached = s.attached ∧ (draw s none).drawingTool = none) ∧
    (draw (draw s none) none).attached = (draw s none).attached := by
  constructor
  · intro hT
    simp [draw, drawFalse, hT]
  · cases hT : s.drawingTool with
    | none => simp [draw, drawFalse, hT]
    | some t =>
      simp only [draw, drawFalse, hT, removeFrom, removeEventListener,
        listenersOf, List.foldl]
      have h1 : (s.attached.erase (t, SemName.DRAW)).Nodup := hnodup.erase _
      have h2 : ((s.attached.erase (t, SemName.DRAW)).erase (t, SemName.END)).Nodup :=
        h1.erase _
      have hD : (t, SemName.DRAW) ∉
          (s.attached.erase (t, SemName.DRAW)).erase (t, SemName.END) := by
        intro hmem
        exact hnodup.not_mem_erase (List.mem_of_mem_erase hmem)
      have hE : (t, SemName.END) ∉
          (s.attached.erase (t, SemName.DRAW)).erase (t, SemName.END) :=
        h1.not_mem_erase
      rw [List.erase_of_not_mem hD, List.erase_of_not_mem hE]

/-- Witness for `deactivate_idempotent`: a fresh surface with no active tool
and nothing attached. -/
theorem deactivate_idempotent_witness :
    ((Surface.drawingTool ⟨[], none, false⟩ = none →
      (draw ⟨[], none, false⟩ none).attached = Surface.attached ⟨[], none, false⟩ ∧
      (draw ⟨[], none, false⟩ none).drawingTool = none) ∧
    (draw (draw ⟨[], none, false⟩ none) none).attached =
      (draw ⟨[], none, false⟩ none).attached) :=
  deactivate_idempotent ⟨[], none, false⟩ (by decide)

/-! ## PathDrawer -/

/-- The `initPoint` string of `PathDrawer.drawingStart`:
`"M " + x + " " + y + " l 0 0"` (a move-to plus a zero-length relative line
so the point is displayed). JS renders the integer-valued coordinates
arising in the claims exactly like `toString` on ℚ renders them. -/
def initPoint (x y : ℚ) : String :=
  "M " ++ toString x ++ " " ++ toString y ++ " l 0 0"

/-- The `newPoint` string of the DRAW handler: `"L " + x + " " + y`. -/
def newPoint (x y : ℚ) : String :=
  "L " ++ toString x ++ " " ++ toString y

/-- A PathDrawer's state together with its visible effects: `paths` is the
list of path elements created by the SVG.js factory so far, in creation
order, each holding its command list; `openIdx` is the index into `paths`
of the path `this.path` refers to (`none` models null); `dom` is the
surface element subtree that the eraser branch removes hit elements from. -/
structure PDState where
  paths : List (List String)
  openIdx : Option Nat
  dom : Dom

/-- `PathDrawer.drawingStart([x, y])`: make a new path whose commands are
the initPoint string and keep the handle to it. -/
def drawingStart (pd : PDState) (p : ℚ × ℚ) : PDState :=
  { pd with
    paths := pd.paths ++ [[initPoint p.1 p.2]]
    openIdx := some pd.paths.length }

/-- The `PathDrawer[DRAW]` handler. `hitFn` is the
`document.elementFromPoint` oracle used by the eraser branch. If the eraser
flag is truthy, delegate to `removeChildFromPoint` and return. Otherwise
open a path at the aligned initial point if none is open, then append a
line command to the aligned current point (`path.array()` push + `plot`). -/
def pathDrawerDraw (box : ViewBox) (fit : Fit) (hitFn : ℚ × ℚ → Option Nat)
    (pd : PDState) (e : SemEvent) : PDState :=
  if e.isEraserButton ≠ 0 then
    { pd with dom := (removeChildFromPoint pd.dom (hitFn e.point)).doc }
  else
    let pd1 :=
      match pd.openIdx with
      | none => drawingStart pd (getPosition box fit e.init e.rect)
      | some _ => pd
    match pd1.openIdx with
    | some i =>
      let xy := getPosition box fit e.point e.rect
      { pd1 with paths := pd1.paths.set i ((pd1.paths.getD i []) ++ [newPoint xy.1 xy.2]) }
    | none => pd1

/-- The `PathDrawer[END]` handler: eraser branch delegates to removal;
otherwise a degenerate tap (no path ever opened) synthesizes the
zero-length mark at the aligned current point; in all cases the open-path
handle is dropped. -/
def pathDrawerEnd (box : ViewBox) (fit : Fit) (hitFn : ℚ × ℚ → Option Nat)
    (pd : PDState) (e : SemEvent) : PDState :=
  let pd1 :=
    if e.isEraserButton ≠ 0 then
      { pd with dom := (removeChildFromPoint pd.dom (hitFn e.point)).doc }
    else
      match pd.openIdx with
      | none => drawingStart pd (getPosition box fit e.point e.rect)
      | some _ => pd
  { pd1 with openIdx := none }

/-- Dispatch of one semantic event to the PathDrawer's handler for its name
(the base-class constructor wires `this[name]` per NAMES entry). -/
def pathDrawerHandle (box : ViewBox) (fit : Fit) (hitFn : ℚ × ℚ → Option Nat)
    (pd : PDState) (e : SemEvent) : PDState :=
  match e.name with
  | .DRAW => pathDrawerDraw box fit hitFn pd e
  | .END => pathDrawerEnd box fit hitFn pd e

/-- One raw pointer event on a surface with an attached PathDrawer: the
PointerTool listeners run and dispatch semantic events, which the
PathDrawer handlers consume synchronously in order. -/
def pdSurfaceStep (box : ViewBox) (fit : Fit) (rect : Rect)
    (hitFn : ℚ × ℚ → Option Nat) (st : PointerState × PDState) (e : PEvent) :
    PointerState × PDState :=
  let r := ptStep rect st.1 e
  (r.1, r.2.foldl (pathDrawerHandle box fit hitFn) st.2)

/-- A whole raw event sequence processed on a PathDrawer surface. -/
def pdSurfaceRun (box : ViewBox) (fit : Fit) (rect : Rect)
    (hitFn : ℚ × ℚ → Option Nat) (st : PointerState × PDState)
    (evs : List PEvent) : PointerState × PDState :=
  evs.foldl (pdSurfaceStep box fit rect hitFn) st

/-- An empty surface subtree for concrete scenarios. -/
def domEmpty : Dom := Dom.node 0 []

/-- A hit-test oracle that never resolves (no shape under the point). -/
def noHit : ℚ × ℚ → Option Nat := fun _ => none

/-- C2 — Simple stroke scenario: surface rect (0,0,100,100), viewBox
(0,0,100,100), fit meet/xMidYMid; primary contact-down at (10,10), move to
(20,10), up at (20,10). The PathDrawer creates exactly one path, its
commands are ["M 10 10 l 0 0", "L 20 10"], and the open-path handle is null
afterwards. -/
theorem simple_stroke_scenario :
    (pdSurfaceRun ⟨0, 0, 100, 100⟩ ⟨AlignKind.xMidYMid, MeetOrSlice.meet⟩
        ⟨0, 0, 100, 100⟩ noHit
        (PointerState.reset, ⟨[], none, domEmpty⟩)
        [PEvent.down ⟨1, true, 10, 10⟩, PEvent.move ⟨1, true, 20, 10⟩,
         PEvent.up ⟨1, true, 20, 10⟩]).2.paths =
      [["M 10 10 l 0 0", "L 20 10"]] ∧
    (pdSurfaceRun ⟨0, 0, 100, 100⟩ ⟨AlignKind.xMidYMid, MeetOrSlice.meet⟩
        ⟨0, 0, 100, 100⟩ noHit
        (PointerState.reset, ⟨[], none, domEmpty⟩)
        [PEvent.down ⟨1, true, 10, 10⟩, PEvent.move ⟨1, true, 20, 10⟩,
         PEvent.up ⟨1, true, 20, 10⟩]).2.openIdx = none := by
  constructor
  · simp only [pdSurfaceRun, pdSurfaceStep, ptStep, pointerdown, pointermove,
      pointerup, makeEvent, pathDrawerHandle, pathDrawerDraw, pathDrawerEnd,
      drawingStart, getPosition, DrawingTool.alignXYFn, DrawingTool.alignFn,
      DrawingTool.scaleFnOf, DrawingTool.scaleUp, DrawingTool.xMid,
      DrawingTool.yMid, PointerState.reset, PointerState.init,
      PointerState.moving, downMask, VALID_BUTTONS, initPoint, newPoint, List.foldl]
    norm_num
    decide
  · simp only [pdSurfaceRun, pdSurfaceStep, ptStep, pointerdown, pointermove,
      pointerup, makeEvent, pathDrawerHandle, pathDrawerDraw, pathDrawerEnd,
      drawingStart, getPosition, DrawingTool.alignXYFn, DrawingTool.alignFn,
      DrawingTool.scaleFnOf, DrawingTool.scaleUp, DrawingTool.xMid,
      DrawingTool.yMid, PointerState.reset, PointerState.init,
      PointerState.moving, downMask, VALID_BUTTONS, initPoint, newPoint, List.foldl]

/-- C6 — Degenerate tap: a qualifying primary contact-down with a
non-eraser button followed immediately by a primary contact-up at the same
point, on a PathDrawer with no open path, creates exactly one new path — a
zero-length mark at the aligned tap point — and leaves the open-path handle
null (and the surface subtree untouched). -/
theorem degenerate_tap (box : ViewBox) (fit : Fit) (rect : Rect)
    (hitFn : ℚ × ℚ → Option Nat) (p : PointerState) (pd : PDState)
    (d u : PtrData)
    (hdp : d.isPrimary = true) (hdb : downMask d.buttons ≠ 0)
    (hde : downMask d.buttons &&& 32 = 0)
    (hup : u.isPrimary = true)
    (hux : u.clientX = d.clientX) (huy : u.clientY = d.clientY)
    (hopen : pd.openIdx = none) :
    (pdSurfaceRun box fit rect hitFn (p, pd) [PEvent.down d, PEvent.up u]).2.paths =
      pd.paths ++ [[initPoint (getPosition box fit (d.clientX, d.clientY) rect).1
        (getPosition box fit (d.clientX, d.clientY) rect).2]] ∧
    (pdSurfaceRun box fit rect hitFn (p, pd) [PEvent.down d, PEvent.up u]).2.openIdx = none ∧
    (pdSurfaceRun box fit rect hitFn (p, pd) [PEvent.down d, PEvent.up u]).2.dom = pd.dom := by
  have h1 : pointerdown p d =
      PointerState.init d.clientX d.clientY (downMask d.buttons) := by
    simp [pointerdown, hdb, hdp]
  simp only [pdSurfaceRun, List.foldl, pdSurfaceStep, ptStep, h1, pointerup,
    hup, PointerState.init, makeEvent, pathDrawerHandle, pathDrawerEnd, hde,
    hopen, drawingStart, hux, huy]
  norm_num

/-- Witness for `degenerate_tap`: a primary tap with buttons = 1 at (10,10)
on a fresh meet/mid-mid surface. -/
theorem degenerate_tap_witness :
    (pdSurfaceRun ⟨0, 0, 100, 100⟩ ⟨AlignKind.xMidYMid, MeetOrSlice.meet⟩
        ⟨0, 0, 100, 100⟩ noHit (PointerState.reset, ⟨[], none, domEmpty⟩)
        [PEvent.down ⟨1, true, 10, 10⟩, PEvent.up ⟨1, true, 10, 10⟩]).2.paths =
      [] ++ [[initPoint
        (getPosition ⟨0, 0, 100, 100⟩ ⟨AlignKind.xMidYMid, MeetOrSlice.meet⟩
          (10, 10) ⟨0, 0, 100, 100⟩).1
        (getPosition ⟨0, 0, 100, 100⟩ ⟨AlignKind.xMidYMid, MeetOrSlice.meet⟩
          (10, 10) ⟨0, 0, 100, 100⟩).2]] ∧
    (pdSurfaceRun ⟨0, 0, 100, 100⟩ ⟨AlignKind.xMidYMid, MeetOrSlice.meet⟩
        ⟨0, 0, 100, 100⟩ noHit (PointerState.reset, ⟨[], none, domEmpty⟩)
        [PEvent.down ⟨1, true, 10, 10⟩, PEvent.up ⟨1, true, 10, 10⟩]).2.openIdx = none ∧
    (pdSurfaceRun ⟨0, 0, 100, 100⟩ ⟨AlignKind.xMidYMid, MeetOrSlice.meet⟩
        ⟨0, 0, 100, 100⟩ noHit (PointerState.reset, ⟨[], none, domEmpty⟩)
        [PEvent.down ⟨1, true, 10, 10⟩, PEvent.up ⟨1, true, 10, 10⟩]).2.dom = domEmpty :=
  degenerate_tap ⟨0, 0, 100, 100⟩ ⟨AlignKind.xMidYMid, MeetOrSlice.meet⟩
    ⟨0, 0, 100, 100⟩ noHit PointerState.reset ⟨[], none, domEmpty⟩
    ⟨1, true, 10, 10⟩ ⟨1, true, 10, 10⟩
    rfl (by decide) (by decide) rfl rfl rfl rfl

end ShrimpNotes
